import Mathlib

/-!
# Sensor attribute cycle behaviour

A shallow embedding of `src/behavior_sensor_attr_cycle.c` (a ZMK behaviour that
cycles a sensor attribute through a devicetree list of values and persists the
active index through the Zephyr settings subsystem), followed by theorems about it.

Conventions of the embedding

* C integers are `Nat`/`Int` with the reductions written out: `uint8_t` values are
  reduced `% 256`, `uint32_t` arithmetic is reduced `% 2 ^ 32`, and the `int32_t`
  fields of an instance are converted on initialisation.
* A `char` array is the list of its elements, NUL padding included; reading it as a
  C string gives `none` when it has no terminator.
* Undefined behaviour (a remainder by zero, an array read past the end) makes an
  operation return `none`.
* A `k_work_delayable` is a one-shot slot: `none` when idle, `some r` when it is
  pending and fires after `r` more milliseconds.
* The calls made on the external collaborators (`sensor_attr_set`,
  `settings_save_one`) are recorded, in order, in the machine state.
* `device_is_ready`, the settings read callback and the elapsing of time belong to
  the environment and are arguments of the operations.
-/

namespace SensorAttrCycle

/-! ## Constants and types -/

/-- The errno value `ENOENT`. -/
def ENOENT : Int := 2

/-- Source line 17: `#define MAX_SETTINGS_LENGTH 16`. -/
def MAX_SETTINGS_LENGTH : Nat := 16

/-- Source line 18: `#define SETTINGS_PREFIX "attr_cycle"`. -/
def SETTINGS_PREFIX : List Char := "attr_cycle".toList

/-- Largest value of a C `long` on the 32-bit targets of the firmware. -/
def LONG_MAX : Int := 2147483647

/-- Smallest value of a C `long` on the 32-bit targets of the firmware. -/
def LONG_MIN : Int := -2147483648

/-- The Zephyr `struct sensor_value`. -/
structure sensor_value where
  val1 : Int
  val2 : Int
deriving DecidableEq, Repr

/-- Source lines 20-29.  `sensor_device` is `true` when the pointer is not `NULL`;
`settings_key` is the content of the `char[MAX_SETTINGS_LENGTH]` array; `values` is
the flexible array member. -/
structure behavior_sensor_attr_cycle_config where
  sensor_device : Bool
  settings_key : List Char
  attr : Int
  save_delay : Int
  load_delay : Int
  persistant : Bool
  length : Nat
  values : List Int
deriving DecidableEq, Repr

/-- Source lines 32-34: the persisted record, one `uint8_t`. -/
structure behavior_sensor_attr_cycle_persistant_state where
  index : Nat
deriving DecidableEq, Repr

/-- A delayable work item: `none` is idle, `some r` fires after `r` more milliseconds. -/
abbrev k_work_delayable := Option Nat

/-- Source lines 63-70 (the `dev` back pointer is the instance itself). -/
structure behavior_sensor_attr_cycle_data where
  load_work : k_work_delayable
  save_work : k_work_delayable
  state : behavior_sensor_attr_cycle_persistant_state
deriving DecidableEq, Repr

/-- One controller instance together with the record of the calls it has made:
`attr_calls` lists the `sensor_attr_set (attr, value)` calls and `saved` the
`settings_save_one (key, bytes)` calls, oldest first; the key of a call is the
`settings_key` array that was passed. -/
structure Machine where
  data : behavior_sensor_attr_cycle_data
  attr_calls : List (Int × sensor_value)
  saved : List (List Char × List Nat)
deriving DecidableEq, Repr

/-- The settings read callback `read_cb (cb_arg, &data->state, len)`: from the byte
currently in the destination buffer and the requested length to the returned
`ssize_t` and the byte in the buffer afterwards. -/
abbrev settings_read_cb := Nat → Nat → Int × Nat

/-- The expression `sizeof(struct behavior_sensor_attr_cycle_persistant_state)`. -/
def sizeof_persistant_state : Nat := 1

/-- The bytes of the state record as `settings_save_one` receives them. -/
def state_bytes (s : behavior_sensor_attr_cycle_persistant_state) : List Nat :=
  [s.index % 256]

/-! ## Zephyr primitives used by the driver -/

/-- The macro `K_MSEC (ms)`: a timeout of `ms` milliseconds, negative values clamped to zero. -/
def K_MSEC (ms : Int) : Nat := ms.toNat

/-- The call `k_work_init_delayable`: the item is idle afterwards. -/
def k_work_init_delayable (_w : k_work_delayable) : k_work_delayable := none

/-- The call `k_work_schedule`: starts the delay unless the item is already pending. -/
def k_work_schedule (w : k_work_delayable) (delay : Nat) : k_work_delayable :=
  match w with
  | none => some delay
  | some r => some r

/-- The call `k_work_reschedule`: replaces whatever was pending and restarts the delay. -/
def k_work_reschedule (_w : k_work_delayable) (delay : Nat) : k_work_delayable :=
  some delay

/-- Let `dt` milliseconds pass on one work item: the item afterwards, and whether it fired. -/
def k_work_elapse (w : k_work_delayable) (dt : Nat) : k_work_delayable × Bool :=
  match w with
  | none => (none, false)
  | some r => if r ≤ dt then (none, true) else (some (r - dt), false)

/-- The C library predicate `isspace` in the "C" locale. -/
def isspace (c : Char) : Bool :=
  c.toNat == 32 || (9 ≤ c.toNat && c.toNat ≤ 13)

/-- The C library predicate `isdigit`. -/
def isdigit (c : Char) : Bool :=
  48 ≤ c.toNat && c.toNat ≤ 57

/-- The digit loop of `strtol` in base 10: the accumulated value and the number of
digits consumed. -/
def strtol_digits : List Char → Nat → Nat → Nat × Nat
  | [], acc, k => (acc, k)
  | c :: cs, acc, k =>
    if isdigit c then strtol_digits cs (acc * 10 + (c.toNat - 48)) (k + 1) else (acc, k)

/-- The NUL character that ends a C string. -/
def NUL : Char := Char.ofNat 0

/-- A `char[size]` array initialised from a string literal: the characters of the
literal, cut off at `size`, the remaining elements zero. -/
def char_array : Nat → List Char → List Char
  | 0, _ => []
  | k + 1, [] => NUL :: char_array k []
  | k + 1, c :: cs => c :: char_array k cs

/-- A `char` array read as a C string: the characters before the first NUL, and
`none` when the array holds no NUL (the read runs past its end). -/
def c_string : List Char → Option (List Char)
  | [] => none
  | c :: cs => if c.toNat == 0 then some [] else (c_string cs).map (fun s => c :: s)

/-- Conversion of an integer to `int32_t` (two's complement). -/
def to_int32 (x : Int) : Int := (x + 2147483648) % 4294967296 - 2147483648

/-- The sign of a `strtol` subject sequence: whether it is negative, and the rest. -/
def strtol_sign (s : List Char) : Bool × List Char :=
  match s with
  | [] => (false, [])
  | c :: t => if c.toNat == 45 then (true, t) else if c.toNat == 43 then (false, t) else (false, c :: t)

/-- The call `strtol (name, &endptr, 10)`: `none` when no conversion is performed
(`endptr == name`), otherwise the converted value, clamped to the range of `long`. -/
def strtol (name : List Char) : Option Int :=
  let s := strtol_sign (name.dropWhile isspace)
  let r := strtol_digits s.2 0 0
  if r.2 = 0 then none
  else if s.1 then some (max LONG_MIN (-(r.1 : Int))) else some (min LONG_MAX (r.1 : Int))

/-! ## Instance definition (`CYCLE_INST`) -/

/-- The preprocessor stringification `#n` of an instance number: its decimal digits. -/
def stringify (n : Nat) : List Char :=
  if n = 0 then [Char.ofNat 48] else (Nat.digits 10 n).reverse.map (fun d => Char.ofNat (48 + d))

/-- The devicetree properties of one instance. -/
structure DtProps where
  sensor_device : Bool
  values : List Int
  attr : Int
  save_delay : Int
  load_delay : Int
  persistant : Bool
deriving DecidableEq, Repr

/-- Source line 164: `data##n = {}`, the zero-initialised instance data. -/
def data_zero : behavior_sensor_attr_cycle_data :=
  { load_work := none, save_work := none, state := { index := 0 } }

/-- Source lines 165-174: the configuration of instance `n`.  `length` is a
`uint8_t` initialised from `DT_PROP_LEN`, the values and the other integer properties
are stored as `int32_t`, and `settings_key` is a `char[MAX_SETTINGS_LENGTH]`
initialised from the literal `SETTINGS_PREFIX "/" #n`. -/
def CYCLE_INST (n : Nat) (p : DtProps) : behavior_sensor_attr_cycle_config :=
  { sensor_device := p.sensor_device
    length := p.values.length % 256
    values := p.values.map to_int32
    attr := to_int32 p.attr
    save_delay := to_int32 p.save_delay
    load_delay := to_int32 p.load_delay
    persistant := p.persistant
    settings_key := char_array MAX_SETTINGS_LENGTH (SETTINGS_PREFIX ++ Char.ofNat 47 :: stringify n) }

/-- Source line 180: `DT_INST_FOREACH_STATUS_OKAY(CYCLE_INST)`, numbering the
instances of `dt` from `from_n`. -/
def instances_from (from_n : Nat) :
    List DtProps → List (behavior_sensor_attr_cycle_config × behavior_sensor_attr_cycle_data)
  | [] => []
  | p :: ps => (CYCLE_INST from_n p, data_zero) :: instances_from (from_n + 1) ps

/-- All instances of a devicetree, numbered from zero. -/
def instances (dt : List DtProps) :
    List (behavior_sensor_attr_cycle_config × behavior_sensor_attr_cycle_data) :=
  instances_from 0 dt

/-- The name a settings handler registered for `SETTINGS_PREFIX` receives for a key
(a C string): the key without the prefix and its separator. -/
def settings_name (key : List Char) : List Char :=
  key.drop (SETTINGS_PREFIX.length + 1)

/-- A read callback backed by an intact stored record: copies what the record has,
up to the requested length, and returns the number of bytes copied. -/
def record_read_cb (record : List Nat) : settings_read_cb :=
  fun buf len =>
    match record with
    | [] => (0, buf)
    | b :: _ => if len = 0 then (0, buf) else (1, b % 256)

/-- A read callback that fails with `-errno` and leaves the buffer alone. -/
def failing_read_cb (errno : Nat) : settings_read_cb :=
  fun buf _ => (-(errno : Int), buf)

/-! ## The driver -/

/-- Whether `sensor_attr_set` may be called: the negation of
`config->sensor_device == NULL || !device_is_ready (config->sensor_device)`. -/
def target_ready (config : behavior_sensor_attr_cycle_config) (ready : Bool) : Bool :=
  config.sensor_device && ready

/-- Source lines 85-95: writes the state record under `settings_key`; the result
of `settings_save_one` is only logged. -/
def save_work_callback (config : behavior_sensor_attr_cycle_config) (m : Machine) : Machine :=
  { m with saved := m.saved ++ [(config.settings_key, state_bytes m.data.state)] }

/-- Source lines 97-111. -/
def load_work_callback (config : behavior_sensor_attr_cycle_config) (ready : Bool)
    (m : Machine) : Option Machine :=
  if !(target_ready config ready) then some m
  else
    match config.values[m.data.state.index]? with
    | none => none
    | some v => some { m with attr_calls := m.attr_calls ++ [(config.attr, { val1 := v, val2 := 0 })] }

/-- Source lines 115-126. -/
def behavior_sensor_attr_cycle_init (config : behavior_sensor_attr_cycle_config)
    (CONFIG_SETTINGS : Bool) (data : behavior_sensor_attr_cycle_data) :
    Int × behavior_sensor_attr_cycle_data :=
  if CONFIG_SETTINGS && config.persistant then
    (0, { data with save_work := k_work_init_delayable data.save_work })
  else (0, data)

/-- Source line 135, the right-hand side `(data->state.index + binding->param1) %
config->length` as stored into the `uint8_t` index.  `param1` is the `uint32_t` field
of the binding: the `uint8_t` index is promoted and added in 32-bit unsigned
arithmetic, the remainder by the promoted `length` is taken, and the result is
truncated to eight bits. -/
def next_index (config : behavior_sensor_attr_cycle_config) (index param1 : Nat) : Nat :=
  ((index + param1 % 2 ^ 32) % 2 ^ 32 % config.length) % 256

/-- Source lines 128-154.  A zero `length` makes the remainder undefined. -/
def on_keymap_binding_pressed (config : behavior_sensor_attr_cycle_config)
    (CONFIG_SETTINGS : Bool) (ready : Bool) (param1 : Nat) (m : Machine) :
    Option (Int × Machine) :=
  if config.length = 0 then none
  else
    let index := next_index config m.data.state.index param1
    let data : behavior_sensor_attr_cycle_data := { m.data with state := { index := index } }
    let data' : behavior_sensor_attr_cycle_data :=
      if CONFIG_SETTINGS && config.persistant then
        { data with save_work := k_work_reschedule data.save_work (K_MSEC config.save_delay) }
      else data
    if !(target_ready config ready) then some (0, { m with data := data' })
    else
      match config.values[index]? with
      | none => none
      | some v =>
        some (0, { m with data := data'
                          attr_calls := m.attr_calls ++ [(config.attr, { val1 := v, val2 := 0 })] })

/-- Source lines 211-226: the part of the settings handler that runs once the
instance has been selected. -/
def settings_load_inst (config : behavior_sensor_attr_cycle_config) (read_cb : settings_read_cb)
    (data : behavior_sensor_attr_cycle_data) : Int × behavior_sensor_attr_cycle_data :=
  if config.persistant then
    let r := read_cb data.state.index sizeof_persistant_state
    let err := r.1
    let data1 : behavior_sensor_attr_cycle_data := { data with state := { index := r.2 % 256 } }
    if 0 ≤ err then
      if config.length ≤ data1.state.index then
        (min err 0, { data1 with state := { index := 0 } })
      else
        (min err 0, { data1 with
          load_work := k_work_schedule (k_work_init_delayable data1.load_work) (K_MSEC config.load_delay) })
    else (min err 0, data1)
  else (min 0 0, data)

/-- Source lines 191-227.  `insts` is the table of the `data##n`/`config##n` pairs the
`switch` selects from; `len` is the size of the stored record. -/
def sensor_attr_cycle_settings_load_cb
    (insts : List (behavior_sensor_attr_cycle_config × behavior_sensor_attr_cycle_data))
    (name : List Char) (_len : Nat) (read_cb : settings_read_cb) :
    Int × List (behavior_sensor_attr_cycle_config × behavior_sensor_attr_cycle_data) :=
  match strtol name with
  | none => (-ENOENT, insts)
  | some identifier =>
    if identifier < 0 then (-ENOENT, insts)
    else
      match insts[identifier.toNat]? with
      | none => (-ENOENT, insts)
      | some (config, data) =>
        let r := settings_load_inst config read_cb data
        (r.1, insts.set identifier.toNat (config, r.2))

/-! ## Environment: stored records, triggers and the passing of time -/

/-- The settings subsystem handing the record of a `settings_save_one` call back to
the handler at boot: the key array is read as a C string, and the handler gets what
follows the prefix, the size of the record and a callback reading it. -/
def settings_load_record
    (insts : List (behavior_sensor_attr_cycle_config × behavior_sensor_attr_cycle_data))
    (call : List Char × List Nat) :
    Option (Int × List (behavior_sensor_attr_cycle_config × behavior_sensor_attr_cycle_data)) :=
  match c_string call.1 with
  | none => none
  | some key =>
    some (sensor_attr_cycle_settings_load_cb insts (settings_name key) call.2.length
      (record_read_cb call.2))

/-- The two's-complement `uint32_t` encoding of a signed step, as stored in
`binding->param1`. -/
def encode_step (step : Int) : Nat := (step % 2 ^ 32).toNat

/-- Let `dt` milliseconds pass: every work item whose delay has run out fires. -/
def elapse (config : behavior_sensor_attr_cycle_config) (ready : Bool) (dt : Nat)
    (m : Machine) : Option Machine :=
  let l := k_work_elapse m.data.load_work dt
  let s := k_work_elapse m.data.save_work dt
  let m1 : Machine := { m with data := { m.data with load_work := l.1, save_work := s.1 } }
  match (if l.2 then load_work_callback config ready m1 else some m1) with
  | none => none
  | some m2 => some (if s.2 then save_work_callback config m2 else m2)

/-- A trigger event: the time since the previous event, whether the target is
ready, and the `param1` of the binding. -/
structure Trigger where
  gap : Nat
  ready : Bool
  param1 : Nat
deriving DecidableEq, Repr

/-- One trigger: the gap passes, then the binding is pressed. -/
def fire (config : behavior_sensor_attr_cycle_config) (m : Machine) (t : Trigger) :
    Option Machine :=
  match elapse config t.ready t.gap m with
  | none => none
  | some m1 =>
    match on_keymap_binding_pressed config true t.ready t.param1 m1 with
    | none => none
    | some r => some r.2

/-- A sequence of triggers, in order. -/
def fire_all (config : behavior_sensor_attr_cycle_config) : Machine → List Trigger → Option Machine
  | m, [] => some m
  | m, t :: ts =>
    match fire config m t with
    | none => none
    | some m1 => fire_all config m1 ts

/-- The machine of a freshly constructed instance. -/
def machine_zero : Machine :=
  { data := data_zero, attr_calls := [], saved := [] }

/-- The invariant `0 <= state.index < length`. -/
def index_in_range (config : behavior_sensor_attr_cycle_config)
    (data : behavior_sensor_attr_cycle_data) : Prop :=
  data.state.index < config.length

instance (config : behavior_sensor_attr_cycle_config) (data : behavior_sensor_attr_cycle_data) :
    Decidable (index_in_range config data) := by
  unfold index_in_range; infer_instance

/-- The invariant for every instance of a table. -/
def table_in_range
    (insts : List (behavior_sensor_attr_cycle_config × behavior_sensor_attr_cycle_data)) : Prop :=
  ∀ p ∈ insts, index_in_range p.1 p.2

instance (insts : List (behavior_sensor_attr_cycle_config × behavior_sensor_attr_cycle_data)) :
    Decidable (table_in_range insts) := by
  unfold table_in_range; infer_instance

/-- The devicetree properties of the spec's scenarios: `values = [10, 20, 30]`,
persistent, target present. -/
def props3 : DtProps :=
  { sensor_device := true, values := [10, 20, 30], attr := 7,
    save_delay := 1000, load_delay := 500, persistant := true }

/-- The configuration of the spec's scenarios, as instance 0. -/
def cfg3 : behavior_sensor_attr_cycle_config := CYCLE_INST 0 props3

/-- A persistence-enabled instance whose devicetree value list is empty. -/
def cfg_empty : behavior_sensor_attr_cycle_config :=
  CYCLE_INST 0 { sensor_device := true, values := [], attr := 7,
                 save_delay := 1000, load_delay := 500, persistant := true }

/-! ## Decoding the instance number -/

theorem digit_char (d : Nat) (h : d < 10) :
    isdigit (Char.ofNat (48 + d)) = true ∧ (Char.ofNat (48 + d)).toNat - 48 = d ∧
      isspace (Char.ofNat (48 + d)) = false ∧ ((Char.ofNat (48 + d)).toNat == 45) = false ∧
      ((Char.ofNat (48 + d)).toNat == 43) = false := by
  interval_cases d <;> decide

theorem strtol_digits_map (l : List Nat) (hl : ∀ d ∈ l, d < 10) (acc k : Nat) :
    strtol_digits (l.map (fun d => Char.ofNat (48 + d))) acc k =
      (l.foldl (fun a d => a * 10 + d) acc, k + l.length) := by
  induction l generalizing acc k with
  | nil => simp [strtol_digits]
  | cons d t ih =>
    have hd := digit_char d (hl d (List.mem_cons_self d t))
    have ht : ∀ e ∈ t, e < 10 := fun e he => hl e (List.mem_cons_of_mem d he)
    simp only [List.map_cons, strtol_digits, hd.1, hd.2.1, if_true, List.foldl_cons,
      List.length_cons]
    rw [ih ht]
    congr 1
    omega

theorem foldl_reverse_digits (l : List Nat) :
    l.reverse.foldl (fun a d => a * 10 + d) 0 = Nat.ofDigits 10 l := by
  induction l with
  | nil => simp
  | cons d t ih =>
    simp only [List.reverse_cons, List.foldl_append, List.foldl_cons, List.foldl_nil, ih,
      Nat.ofDigits_cons]
    omega

theorem strtol_stringify (n : Nat) (h : n ≤ 2147483647) : strtol (stringify n) = some (n : Int) := by
  by_cases h0 : n = 0
  · subst h0; decide
  · have hne : Nat.digits 10 n ≠ [] := Nat.digits_ne_nil_iff_ne_zero.mpr h0
    have hlt : ∀ d ∈ (Nat.digits 10 n).reverse, d < 10 := by
      intro d hd
      exact Nat.digits_lt_base (by norm_num) (List.mem_reverse.mp hd)
    obtain ⟨d, t, hdt⟩ : ∃ d t, (Nat.digits 10 n).reverse = d :: t := by
      cases hr : (Nat.digits 10 n).reverse with
      | nil => exact absurd (List.reverse_eq_nil_iff.mp hr) hne
      | cons d t => exact ⟨d, t, rfl⟩
    have hd := digit_char d (hlt d (by rw [hdt]; exact List.mem_cons_self d t))
    have hval : (Nat.digits 10 n).reverse.foldl (fun a d => a * 10 + d) 0 = n := by
      rw [foldl_reverse_digits, Nat.ofDigits_digits]
    have hdig := strtol_digits_map (Nat.digits 10 n).reverse hlt 0 0
    rw [hval] at hdig
    have hlen : (Nat.digits 10 n).reverse.length ≠ 0 := by rw [hdt]; simp
    have hstr : stringify n = (Nat.digits 10 n).reverse.map (fun d => Char.ofNat (48 + d)) := by
      simp [stringify, h0]
    have hdrop : (stringify n).dropWhile isspace = stringify n := by
      rw [hstr, hdt, List.map_cons, List.dropWhile_cons, hd.2.2.1]
      simp
    have hsign : strtol_sign (stringify n) = (false, stringify n) := by
      rw [hstr, hdt, List.map_cons]
      simp [strtol_sign, hd.2.2.2.1, hd.2.2.2.2]
    unfold strtol
    simp only [hdrop, hsign]
    rw [hstr, hdig]
    simp only [Nat.zero_add, hlen, if_false]
    simp [LONG_MAX]
    exact_mod_cast h

theorem load_cb_dispatch
    (insts : List (behavior_sensor_attr_cycle_config × behavior_sensor_attr_cycle_data))
    (n : Nat) (config : behavior_sensor_attr_cycle_config) (data : behavior_sensor_attr_cycle_data)
    (len : Nat) (read_cb : settings_read_cb)
    (hget : insts[n]? = some (config, data)) (hn : n ≤ 2147483647) :
    sensor_attr_cycle_settings_load_cb insts (stringify n) len read_cb =
      ((settings_load_inst config read_cb data).1,
        insts.set n (config, (settings_load_inst config read_cb data).2)) := by
  unfold sensor_attr_cycle_settings_load_cb
  rw [strtol_stringify n hn]
  simp [hget]

/-! ## The trigger -/

theorem next_index_lt (config : behavior_sensor_attr_cycle_config) (index param1 : Nat)
    (hlen : 0 < config.length) : next_index config index param1 < config.length := by
  unfold next_index
  exact lt_of_le_of_lt (Nat.mod_le _ _) (Nat.mod_lt _ hlen)

theorem pressed_eq (config : behavior_sensor_attr_cycle_config) (cs ready : Bool) (param1 : Nat)
    (m : Machine) (hlen : 0 < config.length) (hvals : config.length ≤ config.values.length) :
    ∃ v, config.values[next_index config m.data.state.index param1]? = some v ∧
      on_keymap_binding_pressed config cs ready param1 m =
        some (0,
          { data :=
              { load_work := m.data.load_work
                save_work :=
                  if cs && config.persistant then some (K_MSEC config.save_delay)
                  else m.data.save_work
                state := { index := next_index config m.data.state.index param1 } }
            attr_calls :=
              if target_ready config ready then
                m.attr_calls ++ [(config.attr, { val1 := v, val2 := 0 })]
              else m.attr_calls
            saved := m.saved }) := by
  have hlt : next_index config m.data.state.index param1 < config.values.length :=
    lt_of_lt_of_le (next_index_lt config _ _ hlen) hvals
  refine ⟨config.values[next_index config m.data.state.index param1], ?_, ?_⟩
  · exact List.getElem?_eq_getElem hlt
  · have hne : config.length ≠ 0 := Nat.pos_iff_ne_zero.mp hlen
    unfold on_keymap_binding_pressed
    simp only [hne, if_false, List.getElem?_eq_getElem hlt, k_work_reschedule]
    cases cs <;> cases hp : config.persistant <;> cases ht : target_ready config ready <;> simp

theorem encode_step_nonneg_sum (index : Nat) (step : Int) (hidx : index < 256)
    (hlo : -2 ^ 31 ≤ step) (hhi : step < 2 ^ 31) (hsum : 0 ≤ (index : Int) + step) :
    (((index + encode_step step % 2 ^ 32) % 2 ^ 32 : Nat) : Int) = (index : Int) + step := by
  unfold encode_step
  have h32 : (2 : Int) ^ 32 = 4294967296 := by norm_num
  have h31 : (2 : Int) ^ 31 = 2147483648 := by norm_num
  have n32 : (2 : Nat) ^ 32 = 4294967296 := by norm_num
  rw [h31] at hlo hhi
  rw [h32, n32]
  omega

theorem elapse_not_ready (config : behavior_sensor_attr_cycle_config) (dt : Nat) (m : Machine) :
    ∃ m1, elapse config false dt m = some m1 ∧ m1.attr_calls = m.attr_calls := by
  unfold elapse load_work_callback target_ready save_work_callback
  cases hl : (k_work_elapse m.data.load_work dt).2 <;>
    cases hs : (k_work_elapse m.data.save_work dt).2 <;> simp [hs]

theorem fire_not_ready (config : behavior_sensor_attr_cycle_config) (m : Machine) (t : Trigger)
    (hlen : 0 < config.length) (hready : t.ready = false) :
    ∃ m1, fire config m t = some m1 ∧ m1.attr_calls = m.attr_calls := by
  obtain ⟨m1, h1, ha1⟩ := elapse_not_ready config t.gap m
  have hne : config.length ≠ 0 := Nat.pos_iff_ne_zero.mp hlen
  unfold fire
  rw [hready, h1]
  simp [on_keymap_binding_pressed, hne, target_ready, ha1]

theorem fire_all_not_ready (config : behavior_sensor_attr_cycle_config) (ts : List Trigger)
    (hlen : 0 < config.length) (hready : ∀ t ∈ ts, t.ready = false) (m : Machine) :
    ∃ m1, fire_all config m ts = some m1 ∧ m1.attr_calls = m.attr_calls := by
  induction ts generalizing m with
  | nil => exact ⟨m, rfl, rfl⟩
  | cons t ts ih =>
    obtain ⟨m1, h1, ha1⟩ := fire_not_ready config m t hlen (hready t (List.mem_cons_self t ts))
    obtain ⟨m2, h2, ha2⟩ := ih (fun u hu => hready u (List.mem_cons_of_mem t hu)) m1
    refine ⟨m2, ?_, ha2.trans ha1⟩
    simp [fire_all, h1, h2]

/-- C1, the code at the scenario of the claim: with `values = [10, 20, 30]` and index 0,
a trigger with step -1 (`param1 = 0xFFFFFFFF`) returns 0 and leaves the index at 0,
while the true modulo `(0 + -1) mod 3` is 2. -/
theorem pressed_minus_one_from_zero :
    (on_keymap_binding_pressed cfg3 true true (encode_step (-1)) machine_zero).map
        (fun r => (r.1, r.2.data.state.index)) = some (0, 0) ∧
      encode_step (-1) = 4294967295 ∧ ((0 : Int) + (-1)) % 3 = 2 := by
  decide

/-- C10: with `param1` the two's-complement `uint32_t` encoding of a signed 32-bit
`step`, for every `length` in `[1, 255]` and every index below `length` with
`index + step >= 0`, the trigger returns and leaves exactly `(index + step) mod length`
in the index. -/
theorem pressed_exact_when_sum_nonneg (config : behavior_sensor_attr_cycle_config)
    (cs ready : Bool) (m : Machine) (step : Int)
    (hlen : 1 ≤ config.length) (hmax : config.length ≤ 255)
    (hvals : config.length ≤ config.values.length)
    (hidx : m.data.state.index < config.length)
    (hlo : -2 ^ 31 ≤ step) (hhi : step < 2 ^ 31)
    (hsum : 0 ≤ (m.data.state.index : Int) + step) :
    ∃ r, on_keymap_binding_pressed config cs ready (encode_step step) m = some r ∧
      (r.2.data.state.index : Int) = ((m.data.state.index : Int) + step) % (config.length : Int) := by
  obtain ⟨v, _, hp⟩ := pressed_eq config cs ready (encode_step step) m hlen hvals
  refine ⟨_, hp, ?_⟩
  have hsum32 := encode_step_nonneg_sum m.data.state.index step (by omega) hlo hhi hsum
  have hlt : (m.data.state.index + encode_step step % 2 ^ 32) % 2 ^ 32 % config.length < 256 :=
    lt_of_lt_of_le (Nat.mod_lt _ hlen) (by omega)
  show ((next_index config m.data.state.index (encode_step step) : Nat) : Int) = _
  unfold next_index
  rw [Nat.mod_eq_of_lt hlt, Int.natCast_mod, hsum32]

/-- Witness of C10: `values = [10, 20, 30]`, index 0, step 4. -/
theorem pressed_exact_when_sum_nonneg_witness :
    ∃ r, on_keymap_binding_pressed cfg3 true true (encode_step 4) machine_zero = some r ∧
      (r.2.data.state.index : Int) =
        ((machine_zero.data.state.index : Int) + 4) % (cfg3.length : Int) :=
  pressed_exact_when_sum_nonneg cfg3 true true machine_zero 4 (by decide) (by decide) (by decide)
    (by decide) (by norm_num) (by norm_num) (by decide)

/-- C7, the claim at an instance whose value list is empty (`length = 0`): the
trigger takes a remainder by zero and returns nothing, with the target ready or not,
and so does a sequence of triggers with the target never ready. -/
theorem pressed_undefined_on_empty_values :
    cfg_empty.length = 0 ∧
      on_keymap_binding_pressed cfg_empty true true 1 machine_zero = none ∧
      on_keymap_binding_pressed cfg_empty true false 1 machine_zero = none ∧
      fire_all cfg_empty machine_zero [⟨0, false, 1⟩, ⟨10, false, 1⟩] = none := by
  decide

/-- C7 as amended: on an instance with `length >= 1` whose value list has at least
`length` entries, for every state and every
`param1`, the trigger returns 0, stores the new index, calls `sensor_attr_set` exactly
once with `attr` and `values[new index]` when the target is present and ready and not at
all otherwise, restarts the save delay when persistence is enabled (leaving the save
item alone otherwise), and touches nothing else; a sequence of triggers during which
the target is never ready makes no `sensor_attr_set` call. -/
theorem pressed_effects (config : behavior_sensor_attr_cycle_config) (cs ready : Bool)
    (param1 : Nat) (m : Machine) (ts : List Trigger)
    (hlen : 0 < config.length) (hvals : config.length ≤ config.values.length)
    (hnever : ∀ t ∈ ts, t.ready = false) :
    (∃ v m1, config.values[next_index config m.data.state.index param1]? = some v ∧
      on_keymap_binding_pressed config cs ready param1 m = some (0, m1) ∧
      m1.data.state.index = next_index config m.data.state.index param1 ∧
      m1.attr_calls =
        (if config.sensor_device = true ∧ ready = true then
          m.attr_calls ++ [(config.attr, { val1 := v, val2 := 0 })]
        else m.attr_calls) ∧
      m1.data.save_work =
        (if cs = true ∧ config.persistant = true then some (K_MSEC config.save_delay)
        else m.data.save_work) ∧
      m1.data.load_work = m.data.load_work ∧ m1.saved = m.saved) ∧
    (∃ m2, fire_all config m ts = some m2 ∧ m2.attr_calls = m.attr_calls) := by
  refine ⟨?_, fire_all_not_ready config ts hlen hnever m⟩
  obtain ⟨v, hv, hp⟩ := pressed_eq config cs ready param1 m hlen hvals
  refine ⟨v, _, hv, hp, rfl, ?_, ?_, rfl, rfl⟩
  · cases hd : config.sensor_device <;> cases ready <;> simp [target_ready, hd]
  · cases cs <;> cases hpers : config.persistant <;> simp

/-- Witness of C7 as amended: `values = [10, 20, 30]`, a fresh instance, `param1 = 1`, followed
by three triggers with the target not ready. -/
theorem pressed_effects_witness :
    (∃ v m1, cfg3.values[next_index cfg3 machine_zero.data.state.index 1]? = some v ∧
      on_keymap_binding_pressed cfg3 true true 1 machine_zero = some (0, m1) ∧
      m1.data.state.index = next_index cfg3 machine_zero.data.state.index 1 ∧
      m1.attr_calls =
        (if cfg3.sensor_device = true ∧ true = true then
          machine_zero.attr_calls ++ [(cfg3.attr, { val1 := v, val2 := 0 })]
        else machine_zero.attr_calls) ∧
      m1.data.save_work =
        (if true = true ∧ cfg3.persistant = true then some (K_MSEC cfg3.save_delay)
        else machine_zero.data.save_work) ∧
      m1.data.load_work = machine_zero.data.load_work ∧ m1.saved = machine_zero.saved) ∧
    (∃ m2, fire_all cfg3 machine_zero
        [⟨0, false, 1⟩, ⟨10, false, 4294967295⟩, ⟨2000, false, 7⟩] = some m2 ∧
      m2.attr_calls = machine_zero.attr_calls) :=
  pressed_effects cfg3 true true 1 machine_zero
    [⟨0, false, 1⟩, ⟨10, false, 4294967295⟩, ⟨2000, false, 7⟩] (by decide) (by decide)
    (by decide)

/-! ## Restore -/

theorem elapse_eq (config : behavior_sensor_attr_cycle_config) (ready : Bool) (dt : Nat)
    (m : Machine) (hidx : m.data.state.index < config.length)
    (hvals : config.length ≤ config.values.length) :
    ∃ v, config.values[m.data.state.index]? = some v ∧
      elapse config ready dt m =
        some
          { data :=
              { load_work := (k_work_elapse m.data.load_work dt).1
                save_work := (k_work_elapse m.data.save_work dt).1
                state := m.data.state }
            attr_calls :=
              if (k_work_elapse m.data.load_work dt).2 && target_ready config ready then
                m.attr_calls ++ [(config.attr, { val1 := v, val2 := 0 })]
              else m.attr_calls
            saved :=
              if (k_work_elapse m.data.save_work dt).2 then
                m.saved ++ [(config.settings_key, state_bytes m.data.state)]
              else m.saved } := by
  have hlt : m.data.state.index < config.values.length := lt_of_lt_of_le hidx hvals
  refine ⟨config.values[m.data.state.index], List.getElem?_eq_getElem hlt, ?_⟩
  unfold elapse load_work_callback save_work_callback
  cases hl : (k_work_elapse m.data.load_work dt).2 <;>
    cases hs : (k_work_elapse m.data.save_work dt).2 <;>
    cases ht : target_ready config ready <;>
    simp [hl, hs, List.getElem?_eq_getElem hlt]

/-- C4: on a persistence-enabled instance, when the read succeeds and the decoded
byte is not below `length`, the settings handler returns 0, sets the index to 0 and
leaves `load_work` as it was (nothing is scheduled). -/
theorem restore_out_of_range_resets
    (insts : List (behavior_sensor_attr_cycle_config × behavior_sensor_attr_cycle_data))
    (n : Nat) (config : behavior_sensor_attr_cycle_config) (data : behavior_sensor_attr_cycle_data)
    (len : Nat) (read_cb : settings_read_cb)
    (hget : insts[n]? = some (config, data)) (hn : n ≤ 2147483647)
    (hpers : config.persistant = true)
    (hok : 0 ≤ (read_cb data.state.index sizeof_persistant_state).1)
    (hbig : config.length ≤ (read_cb data.state.index sizeof_persistant_state).2 % 256) :
    sensor_attr_cycle_settings_load_cb insts (stringify n) len read_cb =
      (0, insts.set n (config,
        { load_work := data.load_work, save_work := data.save_work, state := { index := 0 } })) := by
  rw [load_cb_dispatch insts n config data len read_cb hget hn]
  simp [settings_load_inst, hpers, hok, hbig]

/-- Witness of C4: `values = [10, 20, 30]`, stored byte 5. -/
theorem restore_out_of_range_resets_witness :
    sensor_attr_cycle_settings_load_cb [(cfg3, data_zero)] (stringify 0) 1 (record_read_cb [5]) =
      (0, [(cfg3, data_zero)].set 0 (cfg3,
        { load_work := data_zero.load_work, save_work := data_zero.save_work,
          state := { index := 0 } })) :=
  restore_out_of_range_resets [(cfg3, data_zero)] 0 cfg3 data_zero 1 (record_read_cb [5])
    (by decide) (by decide) (by decide) (by decide) (by decide)

/-- C5, the claim at a trigger inside the delay, `values = [10, 20, 30]`,
`load_delay = 500`: the stored byte 2 is restored and `load_work` scheduled; a trigger
with step 1 comes 100 ms later and moves the index to 0; when `load_work` fires 400 ms
after that, with the target ready, it calls `sensor_attr_set` with `values[0] = 10`,
not with `values[2] = 30`. -/
theorem delayed_apply_uses_current_index :
    sensor_attr_cycle_settings_load_cb [(cfg3, data_zero)] (stringify 0) 1 (record_read_cb [2]) =
        (0, [(cfg3, ⟨some 500, none, ⟨2⟩⟩)]) ∧
      fire cfg3 ⟨⟨some 500, none, ⟨2⟩⟩, [], []⟩ ⟨100, true, 1⟩ =
        some ⟨⟨some 400, some 1000, ⟨0⟩⟩, [(7, ⟨10, 0⟩)], []⟩ ∧
      elapse cfg3 true 400 ⟨⟨some 400, some 1000, ⟨0⟩⟩, [(7, ⟨10, 0⟩)], []⟩ =
        some ⟨⟨none, some 600, ⟨0⟩⟩, [(7, ⟨10, 0⟩), (7, ⟨10, 0⟩)], []⟩ ∧
      cfg3.values[2]? = some 30 := by
  decide

/-- C5 as amended: on a persistence-enabled instance, when the read succeeds with a
decoded index `k < length`, the settings handler returns 0, sets the index to `k` and
leaves `load_work` pending with delay `load_delay`.  With no trigger in between, a wait
shorter than that delay applies nothing and keeps the item pending, and a wait of at
least the delay fires it once and leaves it idle: with the target present and ready
there is exactly one more `sensor_attr_set` call, with `attr` and `values[k]`, and
otherwise there is none.  In whatever state `m` the pending item fires, it is idle
afterwards and the one call it makes when the target is present and ready carries
`values[index]` for the index of that state. -/
theorem restore_in_range_applies
    (insts : List (behavior_sensor_attr_cycle_config × behavior_sensor_attr_cycle_data))
    (n : Nat) (config : behavior_sensor_attr_cycle_config) (data : behavior_sensor_attr_cycle_data)
    (len : Nat) (read_cb : settings_read_cb) (k : Nat) (ready : Bool) (wait : Nat)
    (calls : List (Int × sensor_value)) (saved : List (List Char × List Nat))
    (m : Machine) (r : Nat)
    (hget : insts[n]? = some (config, data)) (hn : n ≤ 2147483647)
    (hpers : config.persistant = true)
    (hok : 0 ≤ (read_cb data.state.index sizeof_persistant_state).1)
    (hk : (read_cb data.state.index sizeof_persistant_state).2 % 256 = k)
    (hlt : k < config.length) (hvals : config.length ≤ config.values.length)
    (hm : index_in_range config m.data) (hpend : m.data.load_work = some r) :
    ∃ v w d m1 m2, config.values[k]? = some v ∧
      config.values[m.data.state.index]? = some w ∧
      sensor_attr_cycle_settings_load_cb insts (stringify n) len read_cb =
        (0, insts.set n (config, d)) ∧
      d = { load_work := some (K_MSEC config.load_delay), save_work := data.save_work,
            state := { index := k } } ∧
      elapse config ready wait { data := d, attr_calls := calls, saved := saved } = some m1 ∧
      m1.attr_calls =
        (if K_MSEC config.load_delay ≤ wait ∧ config.sensor_device = true ∧ ready = true then
          calls ++ [(config.attr, { val1 := v, val2 := 0 })]
        else calls) ∧
      m1.data.load_work =
        (if K_MSEC config.load_delay ≤ wait then none
        else some (K_MSEC config.load_delay - wait)) ∧
      m1.data.state.index = k ∧
      elapse config ready r m = some m2 ∧
      m2.attr_calls =
        (if config.sensor_device = true ∧ ready = true then
          m.attr_calls ++ [(config.attr, { val1 := w, val2 := 0 })]
        else m.attr_calls) ∧
      m2.data.load_work = none ∧ m2.data.state.index = m.data.state.index := by
  have hload : sensor_attr_cycle_settings_load_cb insts (stringify n) len read_cb =
      (0, insts.set n (config,
        { load_work := some (K_MSEC config.load_delay), save_work := data.save_work,
          state := { index := k } })) := by
    rw [load_cb_dispatch insts n config data len read_cb hget hn]
    simp [settings_load_inst, hpers, hok, hk, Nat.not_le.mpr hlt, k_work_schedule,
      k_work_init_delayable]
  obtain ⟨v, hv, h1⟩ := elapse_eq config ready wait
    { data := { load_work := some (K_MSEC config.load_delay), save_work := data.save_work,
                state := { index := k } }, attr_calls := calls, saved := saved } hlt hvals
  obtain ⟨w, hw, h2⟩ := elapse_eq config ready r m hm hvals
  refine ⟨v, w, _, _, _, hv, hw, hload, rfl, h1, ?_, ?_, rfl, h2, ?_, ?_, rfl⟩
  · by_cases hwait : K_MSEC config.load_delay ≤ wait <;>
      cases hd : config.sensor_device <;> cases ready <;>
      simp [k_work_elapse, target_ready, hd, hwait]
  · by_cases hwait : K_MSEC config.load_delay ≤ wait <;> simp [k_work_elapse, hwait]
  · rw [hpend]
    cases hd : config.sensor_device <;> cases ready <;> simp [k_work_elapse, target_ready, hd]
  · rw [hpend]
    simp [k_work_elapse]

/-- Witness of C5 as amended: `values = [10, 20, 30]`, stored byte 2, target ready, a
wait of 500 ms, and the item firing in a state whose index a trigger has moved to 0. -/
theorem restore_in_range_applies_witness :
    ∃ v w d m1 m2, cfg3.values[2]? = some v ∧
      cfg3.values[(⟨⟨some 400, some 1000, ⟨0⟩⟩, [(7, ⟨10, 0⟩)], []⟩ : Machine).data.state.index]? =
        some w ∧
      sensor_attr_cycle_settings_load_cb [(cfg3, data_zero)] (stringify 0) 1 (record_read_cb [2]) =
        (0, [(cfg3, data_zero)].set 0 (cfg3, d)) ∧
      d = { load_work := some (K_MSEC cfg3.load_delay), save_work := data_zero.save_work,
            state := { index := 2 } } ∧
      elapse cfg3 true 500 { data := d, attr_calls := [], saved := [] } = some m1 ∧
      m1.attr_calls =
        (if K_MSEC cfg3.load_delay ≤ 500 ∧ cfg3.sensor_device = true ∧ true = true then
          [] ++ [(cfg3.attr, { val1 := v, val2 := 0 })]
        else []) ∧
      m1.data.load_work =
        (if K_MSEC cfg3.load_delay ≤ 500 then none else some (K_MSEC cfg3.load_delay - 500)) ∧
      m1.data.state.index = 2 ∧
      elapse cfg3 true 400 ⟨⟨some 400, some 1000, ⟨0⟩⟩, [(7, ⟨10, 0⟩)], []⟩ = some m2 ∧
      m2.attr_calls =
        (if cfg3.sensor_device = true ∧ true = true then
          (⟨⟨some 400, some 1000, ⟨0⟩⟩, [(7, ⟨10, 0⟩)], []⟩ : Machine).attr_calls ++
            [(cfg3.attr, { val1 := w, val2 := 0 })]
        else (⟨⟨some 400, some 1000, ⟨0⟩⟩, [(7, ⟨10, 0⟩)], []⟩ : Machine).attr_calls) ∧
      m2.data.load_work = none ∧
      m2.data.state.index =
        (⟨⟨some 400, some 1000, ⟨0⟩⟩, [(7, ⟨10, 0⟩)], []⟩ : Machine).data.state.index :=
  restore_in_range_applies [(cfg3, data_zero)] 0 cfg3 data_zero 1 (record_read_cb [2]) 2 true 500
    [] [] ⟨⟨some 400, some 1000, ⟨0⟩⟩, [(7, ⟨10, 0⟩)], []⟩ 400
    (by decide) (by decide) (by decide) (by decide) (by decide) (by decide) (by decide)
    (by decide) (by decide)

/-- C3, the claim at two records of the wrong size, `values = [10, 20, 30]`: a
two-byte record `[1, 0]` is decoded from its first byte, the index becomes 1 and
`load_work` is scheduled; an empty record keeps the index and `load_work` is
scheduled as well. -/
theorem restore_wrong_size_accepted :
    [1, 0].length ≠ sizeof_persistant_state ∧
      sensor_attr_cycle_settings_load_cb [(cfg3, data_zero)] (stringify 0) 2
          (record_read_cb [1, 0]) =
        (0, [(cfg3, { load_work := some 500, save_work := none, state := { index := 1 } })]) ∧
      ([] : List Nat).length ≠ sizeof_persistant_state ∧
      sensor_attr_cycle_settings_load_cb [(cfg3, data_zero)] (stringify 0) 0 (record_read_cb []) =
        (0, [(cfg3, { load_work := some 500, save_work := none, state := { index := 0 } })]) := by
  decide

/-- C3 as amended: on a persistence-enabled instance whose index is 0, when the read
fails (negative return) and leaves the state buffer as it was, the settings handler
returns that error code, the index is 0 and `load_work` is left as it was (nothing is
scheduled). -/
theorem restore_failed_read_keeps_zero
    (insts : List (behavior_sensor_attr_cycle_config × behavior_sensor_attr_cycle_data))
    (n : Nat) (config : behavior_sensor_attr_cycle_config) (data : behavior_sensor_attr_cycle_data)
    (len : Nat) (read_cb : settings_read_cb)
    (hget : insts[n]? = some (config, data)) (hn : n ≤ 2147483647)
    (hpers : config.persistant = true)
    (hfresh : data.state.index = 0)
    (hfail : (read_cb data.state.index sizeof_persistant_state).1 < 0)
    (hbuf : (read_cb data.state.index sizeof_persistant_state).2 = data.state.index) :
    sensor_attr_cycle_settings_load_cb insts (stringify n) len read_cb =
      ((read_cb data.state.index sizeof_persistant_state).1,
        insts.set n (config,
          { load_work := data.load_work, save_work := data.save_work, state := { index := 0 } })) := by
  rw [load_cb_dispatch insts n config data len read_cb hget hn]
  unfold settings_load_inst
  generalize read_cb data.state.index sizeof_persistant_state = r at hfail hbuf ⊢
  have hnot : ¬ 0 ≤ r.1 := not_le.mpr hfail
  simp [hpers, hnot, hbuf, hfresh, le_of_lt hfail]

/-- Witness of C3 as amended: `values = [10, 20, 30]`, a read failing with `-EIO`. -/
theorem restore_failed_read_keeps_zero_witness :
    sensor_attr_cycle_settings_load_cb [(cfg3, data_zero)] (stringify 0) 1 (failing_read_cb 5) =
      ((failing_read_cb 5 data_zero.state.index sizeof_persistant_state).1,
        [(cfg3, data_zero)].set 0 (cfg3,
          { load_work := data_zero.load_work, save_work := data_zero.save_work,
            state := { index := 0 } })) :=
  restore_failed_read_keeps_zero [(cfg3, data_zero)] 0 cfg3 data_zero 1 (failing_read_cb 5)
    (by decide) (by decide) (by decide) (by decide) (by decide) (by decide)

/-! ## Save and restore -/

theorem instances_from_getElem? (dt : List DtProps) (from_n n : Nat) :
    (instances_from from_n dt)[n]? =
      (dt[n]?).map (fun p => (CYCLE_INST (from_n + n) p, data_zero)) := by
  induction dt generalizing from_n n with
  | nil => simp [instances_from]
  | cons p ps ih =>
    cases n with
    | zero => simp [instances_from]
    | succ k =>
      simp only [instances_from, List.getElem?_cons_succ]
      rw [ih (from_n + 1) k]
      have : from_n + 1 + k = from_n + (k + 1) := by omega
      rw [this]

theorem digit_char_not_nul (d : Nat) (h : d < 10) : ((Char.ofNat (48 + d)).toNat == 0) = false := by
  interval_cases d <;> decide

theorem stringify_not_nul (n : Nat) : ∀ c ∈ stringify n, (c.toNat == 0) = false := by
  intro c hc
  unfold stringify at hc
  by_cases h0 : n = 0
  · simp only [h0, if_true, List.mem_singleton] at hc
    subst hc
    decide
  · simp only [h0, if_false, List.mem_map, List.mem_reverse] at hc
    obtain ⟨d, hd, hcd⟩ := hc
    subst hcd
    exact digit_char_not_nul d (Nat.digits_lt_base (by norm_num) hd)

theorem stringify_length (n : Nat) (h : n ≤ 9999) : (stringify n).length ≤ 4 := by
  unfold stringify
  by_cases h0 : n = 0
  · simp [h0]
  · simp only [h0, if_false, List.length_map, List.length_reverse]
    by_contra hcon
    have h5 : 5 ≤ (Nat.digits 10 n).length := by omega
    have hpow : 10 ^ 5 ≤ 10 ^ (Nat.digits 10 n).length := Nat.pow_le_pow_right (by norm_num) h5
    have hle := Nat.base_pow_length_digits_le 10 n (by norm_num) h0
    have : (10 : Nat) ^ 5 = 100000 := by norm_num
    omega

theorem c_string_char_array (s : List Char) (size : Nat) (hlen : s.length < size)
    (hnul : ∀ c ∈ s, (c.toNat == 0) = false) : c_string (char_array size s) = some s := by
  induction s generalizing size with
  | nil =>
    cases size with
    | zero => exact absurd hlen (Nat.lt_irrefl 0)
    | succ k => simp [char_array, c_string, NUL]
  | cons c cs ih =>
    cases size with
    | zero => exact absurd hlen (Nat.not_lt_zero _)
    | succ k =>
      have hc := hnul c (List.mem_cons_self c cs)
      have hcs : ∀ e ∈ cs, (e.toNat == 0) = false := fun e he => hnul e (List.mem_cons_of_mem c he)
      have hk : cs.length < k := by simpa using hlen
      simp only [char_array, c_string, hc, ih k hk hcs]
      simp

theorem settings_key_terminated (n : Nat) (p : DtProps) (h : n ≤ 9999) :
    c_string (CYCLE_INST n p).settings_key =
      some (SETTINGS_PREFIX ++ Char.ofNat 47 :: stringify n) := by
  have hl := stringify_length n h
  apply c_string_char_array
  · simp only [List.length_append, List.length_cons, MAX_SETTINGS_LENGTH]
    have : SETTINGS_PREFIX.length = 10 := by decide
    omega
  · intro c hc
    rcases List.mem_append.mp hc with hp | hs
    · have hall : ∀ e ∈ SETTINGS_PREFIX, (e.toNat == 0) = false := by decide
      exact hall c hp
    · rcases List.mem_cons.mp hs with h1 | h2
      · subst h1; decide
      · exact stringify_not_nul n c h2

theorem settings_name_key (n : Nat) :
    settings_name (SETTINGS_PREFIX ++ Char.ofNat 47 :: stringify n) = stringify n := by
  simp [settings_name, SETTINGS_PREFIX]

theorem set_getElem?_of_some {α : Type} (l : List α) (i : Nat) (a b : α) (h : l[i]? = some b) :
    (l.set i a)[i]? = some a := by
  have hlt : i < l.length := by
    by_contra hcon
    rw [List.getElem?_eq_none (not_lt.mp hcon)] at h
    exact Option.noConfusion h
  exact List.getElem?_set_self hlt

theorem stringify_10000 :
    stringify 10000 =
      [Char.ofNat 49, Char.ofNat 48, Char.ofNat 48, Char.ofNat 48, Char.ofNat 48] := by
  unfold stringify
  norm_num

theorem stringify_100000 :
    stringify 100000 =
      [Char.ofNat 49, Char.ofNat 48, Char.ofNat 48, Char.ofNat 48, Char.ofNat 48,
        Char.ofNat 48] := by
  unfold stringify
  norm_num

theorem load_cb_at
    (insts : List (behavior_sensor_attr_cycle_config × behavior_sensor_attr_cycle_data))
    (n : Nat) (config : behavior_sensor_attr_cycle_config) (data : behavior_sensor_attr_cycle_data)
    (len : Nat) (read_cb : settings_read_cb) (r : Int) (d : behavior_sensor_attr_cycle_data)
    (hget : insts[n]? = some (config, data)) (hn : n ≤ 2147483647)
    (hr : settings_load_inst config read_cb data = (r, d)) :
    sensor_attr_cycle_settings_load_cb insts (stringify n) len read_cb =
      (r, insts.set n (config, d)) := by
  rw [load_cb_dispatch insts n config data len read_cb hget hn, hr]

theorem settings_load_record_none
    (insts : List (behavior_sensor_attr_cycle_config × behavior_sensor_attr_cycle_data))
    (key : List Char) (bytes : List Nat) (h : c_string key = none) :
    settings_load_record insts (key, bytes) = none := by
  unfold settings_load_record
  rw [h]

theorem settings_load_record_some
    (insts : List (behavior_sensor_attr_cycle_config × behavior_sensor_attr_cycle_data))
    (key s : List Char) (bytes : List Nat) (h : c_string key = some s) :
    settings_load_record insts (key, bytes) =
      some (sensor_attr_cycle_settings_load_cb insts (settings_name s) bytes.length
        (record_read_cb bytes)) := by
  unfold settings_load_record
  rw [h]

theorem big_table_10000 :
    (instances (List.replicate 100001 props3))[10000]? =
      some (CYCLE_INST 10000 props3, data_zero) := by
  unfold instances
  rw [instances_from_getElem?, List.getElem?_replicate_of_lt (by norm_num)]
  simp

theorem big_table_100000 :
    (instances (List.replicate 100001 props3))[100000]? =
      some (CYCLE_INST 100000 props3, data_zero) := by
  unfold instances
  rw [instances_from_getElem?, List.getElem?_replicate_of_lt (by norm_num)]
  simp

theorem key_100000 : (CYCLE_INST 100000 props3).settings_key = "attr_cycle/10000".toList := by
  show char_array MAX_SETTINGS_LENGTH (SETTINGS_PREFIX ++ Char.ofNat 47 :: stringify 100000) = _
  rw [stringify_100000]
  decide

theorem key_100000_unterminated : c_string (CYCLE_INST 100000 props3).settings_key = none := by
  rw [key_100000]
  decide

theorem key_10000 : (CYCLE_INST 10000 props3).settings_key = "attr_cycle/10000".toList := by
  show char_array MAX_SETTINGS_LENGTH (SETTINGS_PREFIX ++ Char.ofNat 47 :: stringify 10000) = _
  rw [stringify_10000]
  decide

theorem name_100000 : settings_name (CYCLE_INST 100000 props3).settings_key = stringify 10000 := by
  rw [key_100000, stringify_10000]
  decide

theorem load_inst_10000 :
    settings_load_inst (CYCLE_INST 10000 props3) (record_read_cb [2]) data_zero =
      (0, ⟨some 500, none, ⟨2⟩⟩) := by
  decide

/-- C6, the claim at instance 100000 of a devicetree with 100001 instances, each with
`values = [10, 20, 30]` and persistence enabled: the sixteen bytes of `settings_key`
hold `attr_cycle/10000`, the same as for instance 10000 and without a terminator, so
the key of the saved record is not a C string; and handing the record with saved index
2 to the settings handler under the name those bytes give puts the index into instance
10000 and leaves instance 100000 at index 0. -/
theorem round_trip_key_truncated :
    (save_work_callback (CYCLE_INST 100000 props3) ⟨⟨none, none, ⟨2⟩⟩, [], []⟩).saved =
        [((CYCLE_INST 100000 props3).settings_key, [2])] ∧
      (CYCLE_INST 100000 props3).settings_key = (CYCLE_INST 10000 props3).settings_key ∧
      settings_load_record (instances (List.replicate 100001 props3))
        ((CYCLE_INST 100000 props3).settings_key, [2]) = none ∧
      settings_name (CYCLE_INST 100000 props3).settings_key = stringify 10000 ∧
      ∃ insts1,
        sensor_attr_cycle_settings_load_cb (instances (List.replicate 100001 props3))
            (settings_name (CYCLE_INST 100000 props3).settings_key) 1 (record_read_cb [2]) =
          (0, insts1) ∧
        insts1[100000]? = some (CYCLE_INST 100000 props3, data_zero) ∧
        insts1[10000]? = some (CYCLE_INST 10000 props3, ⟨some 500, none, ⟨2⟩⟩) := by
  refine ⟨rfl, key_100000.trans key_10000.symm, ?_, name_100000, ?_⟩
  · exact settings_load_record_none _ _ _ key_100000_unterminated
  · refine ⟨(instances (List.replicate 100001 props3)).set 10000
      (CYCLE_INST 10000 props3, ⟨some 500, none, ⟨2⟩⟩), ?_, ?_, ?_⟩
    · rw [name_100000]
      exact load_cb_at _ 10000 _ _ _ _ _ _ big_table_10000 (by norm_num) load_inst_10000
    · rw [List.getElem?_set_ne (by norm_num)]
      exact big_table_100000
    · exact set_getElem?_of_some _ _ _ _ big_table_10000

/-- C6 as amended: for every devicetree, every persistence-enabled instance `n <= 9999`
of it (so that `SETTINGS_PREFIX "/" #n` fits `settings_key` with its terminator) and
every state whose index is below `length`, `save_work_callback` writes one record, the
one-byte state, under the instance's `settings_key`, which reads as the C string
`SETTINGS_PREFIX "/" #n`; and handing that record back to the settings handler of a
freshly constructed system returns 0 and leaves the saved index in instance `n` (with
`load_work` pending). -/
theorem save_restore_round_trip (dt : List DtProps) (n : Nat) (p : DtProps) (m : Machine)
    (hget : dt[n]? = some p) (hn : n ≤ 9999) (hpers : p.persistant = true)
    (hidx : m.data.state.index < (CYCLE_INST n p).length) :
    ∃ bytes insts1,
      (save_work_callback (CYCLE_INST n p) m).saved =
        m.saved ++ [((CYCLE_INST n p).settings_key, bytes)] ∧
      c_string (CYCLE_INST n p).settings_key =
        some (SETTINGS_PREFIX ++ Char.ofNat 47 :: stringify n) ∧
      settings_load_record (instances dt) ((CYCLE_INST n p).settings_key, bytes) =
        some (0, insts1) ∧
      insts1[n]? = some (CYCLE_INST n p,
        { load_work := some (K_MSEC (CYCLE_INST n p).load_delay), save_work := none,
          state := { index := m.data.state.index } }) := by
  have hlen256 : (CYCLE_INST n p).length < 256 := Nat.mod_lt _ (by norm_num)
  have hi256 : m.data.state.index % 256 = m.data.state.index :=
    Nat.mod_eq_of_lt (lt_trans hidx hlen256)
  have hinst : (instances dt)[n]? = some (CYCLE_INST n p, data_zero) := by
    unfold instances
    rw [instances_from_getElem?, hget]
    simp
  have hp : (CYCLE_INST n p).persistant = true := hpers
  have hkey := settings_key_terminated n p hn
  refine ⟨[m.data.state.index],
    (instances dt).set n (CYCLE_INST n p,
      { load_work := some (K_MSEC (CYCLE_INST n p).load_delay), save_work := none,
        state := { index := m.data.state.index } }), ?_, hkey, ?_, ?_⟩
  · simp [save_work_callback, state_bytes, hi256]
  · rw [settings_load_record_some _ _ _ _ hkey, settings_name_key,
      load_cb_dispatch (instances dt) n (CYCLE_INST n p) data_zero _ _ hinst (by omega)]
    have hnot : ¬ (CYCLE_INST n p).length ≤ m.data.state.index := Nat.not_le.mpr hidx
    simp [settings_load_inst, hp, record_read_cb, sizeof_persistant_state, hi256, hnot,
      k_work_schedule, k_work_init_delayable, data_zero]
  · exact set_getElem?_of_some _ _ _ _ hinst

/-- Witness of C6 as amended: one instance with `values = [10, 20, 30]`, saved index 2. -/
theorem save_restore_round_trip_witness :
    ∃ bytes insts1,
      (save_work_callback (CYCLE_INST 0 props3) ⟨⟨none, none, ⟨2⟩⟩, [], []⟩).saved =
        ([] : List (List Char × List Nat)) ++ [((CYCLE_INST 0 props3).settings_key, bytes)] ∧
      c_string (CYCLE_INST 0 props3).settings_key =
        some (SETTINGS_PREFIX ++ Char.ofNat 47 :: stringify 0) ∧
      settings_load_record (instances [props3]) ((CYCLE_INST 0 props3).settings_key, bytes) =
        some (0, insts1) ∧
      insts1[0]? = some (CYCLE_INST 0 props3,
        { load_work := some (K_MSEC (CYCLE_INST 0 props3).load_delay), save_work := none,
          state := { index := 2 } }) :=
  save_restore_round_trip [props3] 0 props3 ⟨⟨none, none, ⟨2⟩⟩, [], []⟩
    (by decide) (by decide) (by decide) (by decide)

/-! ## The index invariant -/

theorem settings_load_inst_in_range (config : behavior_sensor_attr_cycle_config)
    (read_cb : settings_read_cb) (data : behavior_sensor_attr_cycle_data)
    (hread : ∀ buf, (read_cb buf sizeof_persistant_state).1 < 0 →
      (read_cb buf sizeof_persistant_state).2 = buf)
    (hdata : index_in_range config data) :
    index_in_range config (settings_load_inst config read_cb data).2 := by
  unfold index_in_range at hdata ⊢
  unfold settings_load_inst
  have hr := hread data.state.index
  generalize read_cb data.state.index sizeof_persistant_state = r at hr ⊢
  cases hp : config.persistant
  · simpa using hdata
  · by_cases hok : 0 ≤ r.1
    · by_cases hbig : config.length ≤ r.2 % 256
      · simp only [if_true, hok, hbig]
        exact lt_of_le_of_lt (Nat.zero_le _) hdata
      · simp only [if_true, hok, hbig, if_false]
        exact Nat.not_le.mp hbig
    · simp only [if_true, hok, if_false]
      rw [hr (not_le.mp hok)]
      exact lt_of_le_of_lt (Nat.mod_le _ _) hdata

theorem load_cb_table_in_range
    (insts : List (behavior_sensor_attr_cycle_config × behavior_sensor_attr_cycle_data))
    (name : List Char) (len : Nat) (read_cb : settings_read_cb)
    (hread : ∀ buf, (read_cb buf sizeof_persistant_state).1 < 0 →
      (read_cb buf sizeof_persistant_state).2 = buf)
    (hinsts : table_in_range insts) :
    table_in_range (sensor_attr_cycle_settings_load_cb insts name len read_cb).2 := by
  unfold sensor_attr_cycle_settings_load_cb
  cases hs : strtol name with
  | none => exact hinsts
  | some identifier =>
    by_cases hneg : identifier < 0
    · simpa [hneg] using hinsts
    · cases hg : insts[identifier.toNat]? with
      | none => simpa [hneg, hg] using hinsts
      | some cd =>
        obtain ⟨c, d⟩ := cd
        simp only [hneg, if_false, hg]
        intro q hq
        rcases List.mem_or_eq_of_mem_set hq with h | h
        · exact hinsts q h
        · subst h
          exact settings_load_inst_in_range c read_cb d hread
            (hinsts (c, d) (List.getElem?_mem hg))

/-- C9, the claim at an empty value list: `behavior_sensor_attr_cycle_init` returns 0
for the instance with `values = []`, whose `length` is 0, and a trigger on that
instance takes a remainder by zero. -/
theorem init_accepts_empty_values :
    (CYCLE_INST 0 ⟨true, [], 7, 1000, 500, true⟩).length = 0 ∧
      behavior_sensor_attr_cycle_init (CYCLE_INST 0 ⟨true, [], 7, 1000, 500, true⟩) true
          data_zero = (0, data_zero) ∧
      on_keymap_binding_pressed (CYCLE_INST 0 ⟨true, [], 7, 1000, 500, true⟩) true true 1
          machine_zero = none := by
  decide

/-- C9 as amended: `behavior_sensor_attr_cycle_init` returns 0 for every
configuration, whatever the length of the value list, and leaves the state and
`load_work` as they were and `save_work` idle or as it was. -/
theorem init_always_succeeds (config : behavior_sensor_attr_cycle_config) (cs : Bool)
    (data : behavior_sensor_attr_cycle_data) :
    (behavior_sensor_attr_cycle_init config cs data).1 = 0 ∧
      (behavior_sensor_attr_cycle_init config cs data).2.state = data.state ∧
      (behavior_sensor_attr_cycle_init config cs data).2.load_work = data.load_work ∧
      (behavior_sensor_attr_cycle_init config cs data).2.save_work =
        (if cs = true ∧ config.persistant = true then none else data.save_work) := by
  unfold behavior_sensor_attr_cycle_init k_work_init_delayable
  cases cs <;> cases hp : config.persistant <;> simp

/-! ## Debounced save -/

theorem next_index_mod_256 (config : behavior_sensor_attr_cycle_config) (index param1 : Nat) :
    next_index config index param1 % 256 = next_index config index param1 := by
  unfold next_index
  exact Nat.mod_mod _ _

theorem fire_eq (config : behavior_sensor_attr_cycle_config) (m : Machine) (t : Trigger)
    (hlen : 0 < config.length) (hvals : config.length ≤ config.values.length)
    (hpers : config.persistant = true) (hm : index_in_range config m.data) :
    ∃ m1, fire config m t = some m1 ∧
      m1.data.state.index = next_index config m.data.state.index t.param1 ∧
      m1.data.save_work = some (K_MSEC config.save_delay) ∧
      m1.saved =
        (if (k_work_elapse m.data.save_work t.gap).2 then
          m.saved ++ [(config.settings_key, state_bytes m.data.state)]
        else m.saved) := by
  obtain ⟨v, _, he⟩ := elapse_eq config t.ready t.gap m hm hvals
  have hex : ∃ me, elapse config t.ready t.gap m = some me ∧ me.data.state = m.data.state ∧
      me.saved =
        (if (k_work_elapse m.data.save_work t.gap).2 then
          m.saved ++ [(config.settings_key, state_bytes m.data.state)]
        else m.saved) := ⟨_, he, rfl, rfl⟩
  obtain ⟨me, hme, hst, hsv⟩ := hex
  obtain ⟨w, _, hp⟩ := pressed_eq config true t.ready t.param1 me hlen hvals
  unfold fire
  rw [hme]
  dsimp only
  rw [hp]
  refine ⟨_, rfl, ?_, ?_, hsv⟩
  · simp [hst]
  · simp [hpers]

theorem fire_all_pending (config : behavior_sensor_attr_cycle_config) (ts : List Trigger)
    (hlen : 0 < config.length) (hvals : config.length ≤ config.values.length)
    (hpers : config.persistant = true)
    (hgap : ∀ u ∈ ts, u.gap < K_MSEC config.save_delay) (m : Machine)
    (hm : index_in_range config m.data)
    (hpend : m.data.save_work = some (K_MSEC config.save_delay)) :
    ∃ m1, fire_all config m ts = some m1 ∧ m1.saved = m.saved ∧
      m1.data.save_work = some (K_MSEC config.save_delay) ∧ index_in_range config m1.data := by
  induction ts generalizing m with
  | nil => exact ⟨m, rfl, rfl, hpend, hm⟩
  | cons t ts ih =>
    obtain ⟨m1, h1, hi1, hs1, hsv1⟩ := fire_eq config m t hlen hvals hpers hm
    have hg : ¬ K_MSEC config.save_delay ≤ t.gap :=
      Nat.not_le.mpr (hgap t (List.mem_cons_self t ts))
    have hsaved : m1.saved = m.saved := by
      rw [hsv1, hpend]
      simp [k_work_elapse, hg]
    have hm1 : index_in_range config m1.data := by
      unfold index_in_range
      rw [hi1]
      exact next_index_lt config _ _ hlen
    obtain ⟨m2, h2, hsv2, hs2, hm2⟩ :=
      ih (fun u hu => hgap u (List.mem_cons_of_mem t hu)) m1 hm1 hs1
    exact ⟨m2, by simp [fire_all, h1, h2], hsv2.trans hsaved, hs2, hm2⟩

theorem fire_all_idle (config : behavior_sensor_attr_cycle_config) (ts : List Trigger)
    (hlen : 0 < config.length) (hvals : config.length ≤ config.values.length)
    (hpers : config.persistant = true)
    (hgap : ∀ u ∈ ts.tail, u.gap < K_MSEC config.save_delay) (m : Machine)
    (hm : index_in_range config m.data) (hidle : m.data.save_work = none) :
    ∃ m1, fire_all config m ts = some m1 ∧ m1.saved = m.saved ∧
      m1.data.save_work = (if ts = [] then none else some (K_MSEC config.save_delay)) ∧
      index_in_range config m1.data := by
  cases ts with
  | nil => exact ⟨m, rfl, rfl, by simpa using hidle, hm⟩
  | cons t ts =>
    obtain ⟨m1, h1, hi1, hs1, hsv1⟩ := fire_eq config m t hlen hvals hpers hm
    have hsaved : m1.saved = m.saved := by
      rw [hsv1, hidle]
      simp [k_work_elapse]
    have hm1 : index_in_range config m1.data := by
      unfold index_in_range
      rw [hi1]
      exact next_index_lt config _ _ hlen
    obtain ⟨m2, h2, hsv2, hs2, hm2⟩ :=
      fire_all_pending config ts hlen hvals hpers (by simpa using hgap) m1 hm1 hs1
    exact ⟨m2, by simp [fire_all, h1, h2], hsv2.trans hsaved, by simpa using hs2, hm2⟩

theorem fire_all_concat (config : behavior_sensor_attr_cycle_config) (ts : List Trigger)
    (last : Trigger) (m m0 : Machine) (h : fire_all config m ts = some m0) :
    fire_all config m (ts ++ [last]) = fire config m0 last := by
  induction ts generalizing m with
  | nil =>
    simp only [fire_all, Option.some.injEq] at h
    subst h
    simp only [List.nil_append, fire_all]
    cases fire config m last <;> rfl
  | cons t ts ih =>
    simp only [List.cons_append, fire_all] at h ⊢
    cases hf : fire config m t with
    | none => rw [hf] at h; exact Option.noConfusion h
    | some m1 =>
      rw [hf] at h
      exact ih m1 h

/-- C8, the claim at a persistence-enabled instance whose value list is empty
(`length = 0`): the first trigger of a burst takes a remainder by zero, so the burst
returns nothing and no save is scheduled or written. -/
theorem debounce_undefined_on_empty_values :
    cfg_empty.persistant = true ∧ cfg_empty.length = 0 ∧
      fire_all cfg_empty machine_zero ([⟨0, true, 1⟩, ⟨400, true, 1⟩] ++ [⟨999, true, 1⟩]) =
        none ∧
      (fire_all cfg_empty machine_zero
          ([⟨0, true, 1⟩, ⟨400, true, 1⟩] ++ [⟨999, true, 1⟩])).bind
        (elapse cfg_empty true (K_MSEC cfg_empty.save_delay)) = none := by
  decide

/-- C8 as amended: on a persistence-enabled instance with `length >= 1` whose value
list has at least `length` entries, in a state with the index in range and no save
pending, let `ts ++ [last]` be
triggers of which every one after the first comes less than `save_delay` after its
predecessor.  They all return, none of them causes a write, and after the last one the
save item is pending with the full delay and the index is the one the last trigger
computed.  From there a wait shorter than `save_delay` writes nothing; a wait of
`save_delay` writes exactly one record, under `settings_key`, holding that index, and
leaves the save item idle, so that no later wait writes again. -/
theorem debounce_coalesces (config : behavior_sensor_attr_cycle_config) (m : Machine)
    (ts : List Trigger) (last : Trigger) (ready : Bool) (wait later : Nat)
    (hlen : 0 < config.length) (hvals : config.length ≤ config.values.length)
    (hpers : config.persistant = true)
    (hm : index_in_range config m.data) (hidle : m.data.save_work = none)
    (hgap : ∀ u ∈ (ts ++ [last]).tail, u.gap < K_MSEC config.save_delay) :
    ∃ m0 m1 m2 m3 m4, fire_all config m ts = some m0 ∧
      fire_all config m (ts ++ [last]) = some m1 ∧
      m1.data.state.index = next_index config m0.data.state.index last.param1 ∧
      m1.saved = m.saved ∧
      m1.data.save_work = some (K_MSEC config.save_delay) ∧
      elapse config ready wait m1 = some m2 ∧
      m2.saved =
        (if K_MSEC config.save_delay ≤ wait then
          m.saved ++ [(config.settings_key, [m1.data.state.index])]
        else m.saved) ∧
      elapse config ready (K_MSEC config.save_delay) m1 = some m3 ∧
      m3.saved = m.saved ++ [(config.settings_key, [m1.data.state.index])] ∧
      m3.data.save_work = none ∧
      elapse config ready later m3 = some m4 ∧ m4.saved = m3.saved := by
  have hgap0 : ∀ u ∈ ts.tail, u.gap < K_MSEC config.save_delay := by
    intro u hu
    apply hgap u
    cases ts with
    | nil => simp at hu
    | cons t ts => simp only [List.cons_append, List.tail_cons] at hu ⊢; simp [hu]
  obtain ⟨m0, h0, hsv0, hs0, hm0⟩ := fire_all_idle config ts hlen hvals hpers hgap0 m hm hidle
  obtain ⟨m1, h1, hi1, hs1, hsv1⟩ := fire_eq config m0 last hlen hvals hpers hm0
  have hquiet : (k_work_elapse m0.data.save_work last.gap).2 = false := by
    rw [hs0]
    cases ts with
    | nil => simp [k_work_elapse]
    | cons t ts =>
      have hg : last.gap < K_MSEC config.save_delay :=
        hgap last (by simp only [List.cons_append, List.tail_cons]; simp)
      simp [k_work_elapse, Nat.not_le.mpr hg]
  have hsaved1 : m1.saved = m.saved := by
    rw [hsv1, hquiet]
    simpa using hsv0
  have hm1 : index_in_range config m1.data := by
    unfold index_in_range
    rw [hi1]
    exact next_index_lt config _ _ hlen
  have hbytes : state_bytes m1.data.state = [m1.data.state.index] := by
    unfold state_bytes
    rw [hi1, next_index_mod_256]
  obtain ⟨v2, _, h2⟩ := elapse_eq config ready wait m1 hm1 hvals
  obtain ⟨v3, _, h3⟩ := elapse_eq config ready (K_MSEC config.save_delay) m1 hm1 hvals
  have hm3 : index_in_range config
      ({ data :=
          { load_work := (k_work_elapse m1.data.load_work (K_MSEC config.save_delay)).1
            save_work := (k_work_elapse m1.data.save_work (K_MSEC config.save_delay)).1
            state := m1.data.state }
         attr_calls :=
          if (k_work_elapse m1.data.load_work (K_MSEC config.save_delay)).2 &&
              target_ready config ready then
            m1.attr_calls ++ [(config.attr, { val1 := v3, val2 := 0 })]
          else m1.attr_calls
         saved :=
          if (k_work_elapse m1.data.save_work (K_MSEC config.save_delay)).2 then
            m1.saved ++ [(config.settings_key, state_bytes m1.data.state)]
          else m1.saved } : Machine).data := hm1
  obtain ⟨v4, _, h4⟩ := elapse_eq config ready later _ hm3 hvals
  refine ⟨m0, m1, _, _, _, h0, (fire_all_concat config ts last m m0 h0).trans h1, hi1, hsaved1,
    hs1, h2, ?_, h3, ?_, ?_, h4, ?_⟩
  · rw [hs1, hbytes, hsaved1]
    by_cases hw : K_MSEC config.save_delay ≤ wait <;> simp [k_work_elapse, hw]
  · rw [hs1, hbytes, hsaved1]
    simp [k_work_elapse]
  · rw [hs1]
    simp [k_work_elapse]
  · rw [hs1]
    simp [k_work_elapse]

/-- Witness of C8 as amended: `values = [10, 20, 30]`, `save_delay = 1000`, three triggers 400 ms
and 999 ms apart, then waits of 999 ms and of 5000 ms. -/
theorem debounce_coalesces_witness :
    ∃ m0 m1 m2 m3 m4,
      fire_all cfg3 machine_zero [⟨0, true, 1⟩, ⟨400, true, 1⟩] = some m0 ∧
      fire_all cfg3 machine_zero ([⟨0, true, 1⟩, ⟨400, true, 1⟩] ++ [⟨999, true, 4294967295⟩]) =
        some m1 ∧
      m1.data.state.index = next_index cfg3 m0.data.state.index 4294967295 ∧
      m1.saved = machine_zero.saved ∧
      m1.data.save_work = some (K_MSEC cfg3.save_delay) ∧
      elapse cfg3 true 999 m1 = some m2 ∧
      m2.saved =
        (if K_MSEC cfg3.save_delay ≤ 999 then
          machine_zero.saved ++ [(cfg3.settings_key, [m1.data.state.index])]
        else machine_zero.saved) ∧
      elapse cfg3 true (K_MSEC cfg3.save_delay) m1 = some m3 ∧
      m3.saved = machine_zero.saved ++ [(cfg3.settings_key, [m1.data.state.index])] ∧
      m3.data.save_work = none ∧
      elapse cfg3 true 5000 m3 = some m4 ∧ m4.saved = m3.saved :=
  debounce_coalesces cfg3 machine_zero [⟨0, true, 1⟩, ⟨400, true, 1⟩] ⟨999, true, 4294967295⟩
    true 999 5000 (by decide) (by decide) (by decide) (by decide) (by decide) (by decide)

end SensorAttrCycle
